import Mathlib

/-!
Verification of the planner repository's connection-lifecycle core.

The development shallowly embeds:
- the `ComposioService` in-process connection registry (a JS `Map` from
  `userEmail` to `UserConnection`) and its operations
  `connectUserGoogleAccount`, `hasUserConnection`, `refreshUserConnection`,
  `removeUserConnection`, `getUserConnectionsSummary`;
- the entity-id derivation in `setupUserConnectionIfNotExists`
  (`userEmail.replace(/[^a-zA-Z0-9]/g, '_').toLowerCase()`);
- the `/api/ai/send-message` dispatch short-circuit logic;
- the `OAuthCallback` component's `handleOAuthCallback` control flow.

Timestamps (`Date.now()`, `expiresAt`) are modelled as integers (epoch
milliseconds), passed explicitly as a `now` parameter wherever the source
reads the clock.
-/

namespace Planner

/-- `UserConnection.status` values (`'active' | 'expired' | 'revoked'`). -/
inductive ConnStatus where
  | active
  | expired
  | revoked
  deriving DecidableEq, Repr

/-- The `UserConnection` record stored in `ComposioService.userConnections`. -/
structure UserConnection where
  connectionId : String
  userEmail : String
  accessToken : String
  refreshToken : Option String
  expiresAt : Int
  status : ConnStatus
  deriving DecidableEq, Repr

/-- The registry `Map<string, UserConnection>`: an insertion-ordered
association list keyed by `userEmail`. -/
abbrev Registry := List (String × UserConnection)

/-- `Map.get(k)`: the value at the first (in a JS `Map`, unique) entry for `k`. -/
def mapGet : Registry → String → Option UserConnection
  | [], _ => none
  | (k', v') :: rest, k => if k' = k then some v' else mapGet rest k

/-- `Map.set(k, v)`: replace the entry for `k` in place if present,
otherwise append a new entry at the end (JS `Map` insertion order). -/
def mapSet : Registry → String → UserConnection → Registry
  | [], k, v => [(k, v)]
  | (k', v') :: rest, k, v =>
    if k' = k then (k, v) :: rest else (k', v') :: mapSet rest k v

/-- The keys (userEmails) of the registry, in order. -/
def keys (m : Registry) : List String := m.map Prod.fst

/-- `connectUserGoogleAccount(userEmail, accessToken, refreshToken?, expiresIn?)`:
stores a fresh record with `status: 'active'`, a `connectionId` of the form
`conn_` + userEmail + `_` + Date.now(), and
`expiresAt = now + expiresIn*1000` (default 3600s), keyed by `userEmail`. -/
def connectUserGoogleAccount (m : Registry) (userEmail accessToken : String)
    (refreshToken : Option String) (expiresIn : Option Int) (now : Int) :
    Registry :=
  let connectionId := "conn_" ++ userEmail ++ "_" ++ toString now
  let expiresAt : Int :=
    match expiresIn with
    | some e => now + e * 1000
    | none => now + 3600 * 1000
  mapSet m userEmail
    { connectionId := connectionId
      userEmail := userEmail
      accessToken := accessToken
      refreshToken := refreshToken
      expiresAt := expiresAt
      status := ConnStatus.active }

/-- The record written by `connectUserGoogleAccount`. -/
def connRecord (e tok : String) (rtok : Option String) (ein : Option Int)
    (now : Int) : UserConnection :=
  { connectionId := "conn_" ++ e ++ "_" ++ toString now
    userEmail := e
    accessToken := tok
    refreshToken := rtok
    expiresAt :=
      match ein with
      | some x => now + x * 1000
      | none => now + 3600 * 1000
    status := ConnStatus.active }

/-- `hasUserConnection(userEmail)`:
`connection?.status === 'active' && connection.expiresAt > Date.now()`. -/
def hasUserConnection (m : Registry) (userEmail : String) (now : Int) : Bool :=
  match mapGet m userEmail with
  | some c => decide (c.status = ConnStatus.active) && decide (c.expiresAt > now)
  | none => false

/-- `refreshUserConnection(userEmail)`: returns `false` without touching the
registry when no record or no refresh token exists; otherwise sets
`expiresAt = Date.now() + 3600*1000` and returns `true`. -/
def refreshUserConnection (m : Registry) (userEmail : String) (now : Int) :
    Registry × Bool :=
  match mapGet m userEmail with
  | none => (m, false)
  | some c =>
    match c.refreshToken with
    | none => (m, false)
    | some _ =>
      (mapSet m userEmail { c with expiresAt := now + 3600 * 1000 }, true)

/-- `removeUserConnection(userEmail)`: returns `false` if no record exists;
otherwise marks the record `status = 'revoked'` (never deletes) and
returns `true`. -/
def removeUserConnection (m : Registry) (userEmail : String) :
    Registry × Bool :=
  match mapGet m userEmail with
  | none => (m, false)
  | some c => (mapSet m userEmail { c with status := ConnStatus.revoked }, true)

/-- The `{total, active, expired}` view of `getUserConnectionsSummary()`. -/
structure Summary where
  total : Nat
  active : Nat
  expired : Nat
  deriving DecidableEq, Repr

/-- `getUserConnectionsSummary()`: `total` is the record count, `active` counts
records with `status === 'active' && expiresAt > Date.now()`, `expired` counts
records with `status === 'active' && expiresAt <= Date.now()`. -/
def getUserConnectionsSummary (m : Registry) (now : Int) : Summary :=
  let connections := m.map Prod.snd
  { total := connections.length
    active := (connections.filter
      (fun c => decide (c.status = ConnStatus.active) && decide (c.expiresAt > now))).length
    expired := (connections.filter
      (fun c => decide (c.status = ConnStatus.active) && decide (c.expiresAt ≤ now))).length }

/-- One character of `userEmail.replace(/[^a-zA-Z0-9]/g, '_')`: an ASCII
alphanumeric character is kept, anything else becomes an underscore. -/
def sanitizeChar (c : Char) : Char :=
  if c.isAlphanum then c else '_'

/-- The entity-id derivation in `setupUserConnectionIfNotExists`:
`userEmail.replace(/[^a-zA-Z0-9]/g, '_').toLowerCase()`, character by
character (only ASCII alphanumerics and underscores remain after the
replacement, on which JS and ASCII lower-casing agree). -/
def deriveEntityId (userEmail : String) : String :=
  String.mk (userEmail.data.map (fun c => (sanitizeChar c).toLower))

/-- The status field of `checkConnectionStatus(userEmail)`'s result:
`'not_found'`, `'pending'`, `'error'`, or `'active'`. -/
inductive ConnCheckStatus where
  | notFound
  | pending
  | error
  | active
  deriving DecidableEq, Repr

/-- The shape of the `/api/ai/send-message` response body. -/
inductive DispatchOutcome where
  | validationError
  | needsConnectionMsg
  | serverError
  | aiMessage
  deriving DecidableEq, Repr

/-- Whether a response body carries `response.needsConnection: true`. -/
def needsConnectionFlag : DispatchOutcome → Bool
  | DispatchOutcome.needsConnectionMsg => true
  | _ => false

/-- The `/api/ai/send-message` handler after body parsing. Inputs: whether
`message` and `userEmail` were present, the status resolved by
`checkConnectionStatus`, and the outcomes of the fallible external steps
(`getUserTools`, the first and second `generateText` calls). Returns the
response shape together with the number of `generateText` invocations
performed. -/
def dispatchSendMessage (hasMessage hasEmail : Bool) (status : ConnCheckStatus)
    (toolsOk llm1Ok llm2Ok : Bool) : DispatchOutcome × Nat :=
  if !hasMessage || !hasEmail then (DispatchOutcome.validationError, 0)
  else
    match status with
    | ConnCheckStatus.notFound => (DispatchOutcome.needsConnectionMsg, 0)
    | ConnCheckStatus.pending => (DispatchOutcome.needsConnectionMsg, 0)
    | ConnCheckStatus.error => (DispatchOutcome.needsConnectionMsg, 0)
    | ConnCheckStatus.active =>
      if !toolsOk then (DispatchOutcome.serverError, 0)
      else if !llm1Ok then (DispatchOutcome.serverError, 1)
      else if !llm2Ok then (DispatchOutcome.serverError, 2)
      else (DispatchOutcome.aiMessage, 2)

/-- The observable `CallbackState.status` values of the `OAuthCallback`
component: `'processing' | 'success' | 'error'`. -/
inductive CbStatus where
  | processing
  | success
  | error
  deriving DecidableEq, Repr

/-- First value for a query-parameter name in a redirect URL's query string. -/
def lookupParam : List (String × String) → String → Option String
  | [], _ => none
  | (k, v) :: rest, name => if k = name then some v else lookupParam rest name

/-- Modelled from the spec: `oauthService.handleCallback` is not among the
source files (only its caller in `OAuthCallback.tsx` is). Per the spec it
parses the `code` and `state` query parameters from the redirect URL and
fails (yields no result) when either is absent. -/
def handleCallback (query : List (String × String)) : Option (String × String) :=
  match lookupParam query "code", lookupParam query "state" with
  | some c, some s => some (c, s)
  | _, _ => none

/-- The `handleOAuthCallback` flow of `OAuthCallback.tsx`, as the ordered
trace of statuses passed to `setCallbackState`. Inputs: the redirect URL's
query parameters, whether `exchangeCodeForTokens` succeeds, the optional
`state.user?.email`, and whether `connectToServerIntegration` succeeds.
A falsy callback result or a failed exchange throws into the catch block
(terminal `error`); a bridge failure is caught locally, logged, and the flow
continues to terminal `success`. -/
def handleOAuthCallback (query : List (String × String)) (exchangeOk : Bool)
    (userEmail : Option String) (bridgeOk : Bool) : List CbStatus :=
  let t0 := [CbStatus.processing]
  match handleCallback query with
  | none => t0 ++ [CbStatus.error]
  | some _ =>
    let t1 := t0 ++ [CbStatus.processing]
    if !exchangeOk then t1 ++ [CbStatus.error]
    else
      let t2 := t1 ++ [CbStatus.processing]
      match userEmail, bridgeOk with
      | _, _ => t2 ++ [CbStatus.success]

/-- The terminal state of a callback trace. -/
def finalStatus (t : List CbStatus) : Option CbStatus := t.getLast?

/-- Registry states reachable through the `ComposioService` lifecycle
operations, starting from the empty `Map`. -/
inductive Reachable : Registry → Prop
  | init : Reachable []
  | connect (m : Registry) (e tok : String) (rtok : Option String)
      (ein : Option Int) (now : Int) :
      Reachable m → Reachable (connectUserGoogleAccount m e tok rtok ein now)
  | refresh (m : Registry) (e : String) (now : Int) :
      Reachable m → Reachable (refreshUserConnection m e now).1
  | revoke (m : Registry) (e : String) :
      Reachable m → Reachable (removeUserConnection m e).1

/-- The structural invariant of the registry: the `Map`'s keys are distinct,
and every stored record's status is one the code can write (`'active'` on
connect, `'revoked'` on removal; no code path writes `'expired'`). -/
def GoodState (m : Registry) : Prop :=
  (keys m).Nodup ∧
  ∀ p ∈ m, p.2.status = ConnStatus.active ∨ p.2.status = ConnStatus.revoked

/-- Concrete fixture: an active record with a refresh token, expiring at
epoch-millisecond 7200000. -/
def sampleLongLivedConn : UserConnection :=
  { connectionId := "conn0"
    userEmail := "u"
    accessToken := "at"
    refreshToken := some "rt"
    expiresAt := 7200000
    status := ConnStatus.active }

/-- Concrete fixture: a registry holding only `sampleLongLivedConn`. -/
def sampleRegistry : Registry := [("u", sampleLongLivedConn)]

/-- Concrete fixture: a revoked record that still has a refresh token. -/
def sampleRevokedConn : UserConnection :=
  { connectionId := "conn1"
    userEmail := "w"
    accessToken := "at"
    refreshToken := some "rt"
    expiresAt := 7200000
    status := ConnStatus.revoked }

/-- Concrete fixture: a registry holding only `sampleRevokedConn`. -/
def sampleRevokedRegistry : Registry := [("w", sampleRevokedConn)]

/-! ### Association-list (`Map`) lemmas -/

theorem mapGet_mapSet_self (m : Registry) (k : String) (v : UserConnection) :
    mapGet (mapSet m k v) k = some v := by
  induction m with
  | nil => simp [mapSet, mapGet]
  | cons p rest ih =>
    obtain ⟨k', v'⟩ := p
    by_cases h : k' = k
    · simp [mapSet, h, mapGet]
    · simp [mapSet, h, mapGet, ih]

theorem mapGet_mapSet_ne (m : Registry) (k k' : String) (v : UserConnection)
    (h : k' ≠ k) : mapGet (mapSet m k v) k' = mapGet m k' := by
  induction m with
  | nil => simp [mapSet, mapGet, Ne.symm h]
  | cons p rest ih =>
    obtain ⟨k0, v0⟩ := p
    by_cases h0 : k0 = k
    · subst h0
      simp [mapSet, mapGet, Ne.symm h]
    · simp [mapSet, h0, mapGet, ih]

theorem keys_mapSet_mem (m : Registry) (k : String) (v : UserConnection)
    (h : k ∈ keys m) : keys (mapSet m k v) = keys m := by
  induction m with
  | nil => simp [keys] at h
  | cons p rest ih =>
    obtain ⟨k0, v0⟩ := p
    by_cases h0 : k0 = k
    · subst h0
      simp [mapSet, keys]
    · have hk : k ∈ keys rest := by
        simp [keys] at h
        rcases h with h | h
        · exact absurd h.symm h0
        · simpa [keys] using h
      have ih' := ih hk
      simp only [keys] at ih'
      simp only [mapSet, if_neg h0, keys, List.map_cons]
      rw [ih']

theorem keys_mapSet_not_mem (m : Registry) (k : String) (v : UserConnection)
    (h : k ∉ keys m) : keys (mapSet m k v) = keys m ++ [k] := by
  induction m with
  | nil => simp [mapSet, keys]
  | cons p rest ih =>
    obtain ⟨k0, v0⟩ := p
    have h0 : k0 ≠ k := by
      intro hc
      exact h (by simp [keys, hc])
    have hk : k ∉ keys rest := by
      intro hc
      exact h (by simp [keys]; exact Or.inr (by simpa [keys] using hc))
    have ih' := ih hk
    simp only [keys] at ih'
    simp only [mapSet, if_neg h0, keys, List.map_cons]
    rw [ih']
    simp

theorem nodup_keys_mapSet (m : Registry) (k : String) (v : UserConnection)
    (h : (keys m).Nodup) : (keys (mapSet m k v)).Nodup := by
  by_cases hm : k ∈ keys m
  · rw [keys_mapSet_mem m k v hm]; exact h
  · rw [keys_mapSet_not_mem m k v hm]
    rw [List.nodup_append]
    refine ⟨h, List.nodup_singleton k, ?_⟩
    intro a ha hc
    simp at hc
    subst hc
    exact hm ha

theorem mem_mapSet (m : Registry) (k : String) (v : UserConnection)
    (p : String × UserConnection) (h : p ∈ mapSet m k v) :
    p = (k, v) ∨ p ∈ m := by
  induction m with
  | nil => simp [mapSet] at h; simp [h]
  | cons q rest ih =>
    obtain ⟨k0, v0⟩ := q
    by_cases h0 : k0 = k
    · subst h0
      simp [mapSet] at h
      rcases h with h | h
      · exact Or.inl h
      · exact Or.inr (by simp [h])
    · simp [mapSet, h0] at h
      rcases h with h | h
      · exact Or.inr (by simp [h])
      · rcases ih h with h' | h'
        · exact Or.inl h'
        · exact Or.inr (by simp [h'])

theorem mapGet_mem (m : Registry) (k : String) (v : UserConnection)
    (h : mapGet m k = some v) : (k, v) ∈ m := by
  induction m with
  | nil => simp [mapGet] at h
  | cons q rest ih =>
    obtain ⟨k0, v0⟩ := q
    by_cases h0 : k0 = k
    · subst h0
      simp [mapGet] at h
      simp [h]
    · simp [mapGet, h0] at h
      exact List.mem_cons_of_mem _ (ih h)

theorem length_mapSet_mem (m : Registry) (k : String) (v : UserConnection)
    (h : k ∈ keys m) : (mapSet m k v).length = m.length := by
  have h1 : (keys (mapSet m k v)).length = (keys m).length := by
    rw [keys_mapSet_mem m k v h]
  simpa [keys] using h1

theorem length_mapSet_not_mem (m : Registry) (k : String) (v : UserConnection)
    (h : k ∉ keys m) : (mapSet m k v).length = m.length + 1 := by
  have h1 : (keys (mapSet m k v)).length = (keys m).length + 1 := by
    rw [keys_mapSet_not_mem m k v h]; simp
  simpa [keys] using h1

theorem count_keys_mapSet (m : Registry) (k : String) (v : UserConnection)
    (h : (keys m).Nodup) : (keys (mapSet m k v)).count k = 1 := by
  by_cases hm : k ∈ keys m
  · rw [keys_mapSet_mem m k v hm]
    exact List.count_eq_one_of_mem h hm
  · rw [keys_mapSet_not_mem m k v hm]
    simp [List.count_append, List.count_eq_zero_of_not_mem hm]

/-! ### Characterization of the lifecycle operations -/

theorem connect_eq (m : Registry) (e tok : String) (rtok : Option String)
    (ein : Option Int) (now : Int) :
    connectUserGoogleAccount m e tok rtok ein now =
      mapSet m e (connRecord e tok rtok ein now) := rfl

theorem refresh_eq_absent (m : Registry) (e : String) (now : Int)
    (hg : mapGet m e = none) : refreshUserConnection m e now = (m, false) := by
  simp only [refreshUserConnection, hg]

theorem refresh_eq_no_token (m : Registry) (e : String) (now : Int)
    (c : UserConnection) (hg : mapGet m e = some c)
    (hr : c.refreshToken = none) : refreshUserConnection m e now = (m, false) := by
  simp only [refreshUserConnection, hg, hr]

theorem refresh_eq_token (m : Registry) (e : String) (now : Int)
    (c : UserConnection) (t : String) (hg : mapGet m e = some c)
    (hr : c.refreshToken = some t) :
    refreshUserConnection m e now =
      (mapSet m e { c with expiresAt := now + 3600 * 1000 }, true) := by
  simp only [refreshUserConnection, hg, hr]

theorem revoke_eq_absent (m : Registry) (e : String)
    (hg : mapGet m e = none) : removeUserConnection m e = (m, false) := by
  simp only [removeUserConnection, hg]

theorem revoke_eq_present (m : Registry) (e : String) (c : UserConnection)
    (hg : mapGet m e = some c) :
    removeUserConnection m e =
      (mapSet m e { c with status := ConnStatus.revoked }, true) := by
  simp only [removeUserConnection, hg]

/-! ### Lifecycle invariant -/

theorem goodState_connect (m : Registry) (e tok : String) (rtok : Option String)
    (ein : Option Int) (now : Int) (h : GoodState m) :
    GoodState (connectUserGoogleAccount m e tok rtok ein now) := by
  rw [connect_eq]
  refine ⟨nodup_keys_mapSet _ _ _ h.1, ?_⟩
  intro p hp
  rcases mem_mapSet _ _ _ _ hp with rfl | hpm
  · left; rfl
  · exact h.2 p hpm

theorem goodState_refresh (m : Registry) (e : String) (now : Int)
    (h : GoodState m) : GoodState (refreshUserConnection m e now).1 := by
  cases hg : mapGet m e with
  | none => rw [refresh_eq_absent m e now hg]; exact h
  | some c =>
    cases hr : c.refreshToken with
    | none => rw [refresh_eq_no_token m e now c hg hr]; exact h
    | some t =>
      rw [refresh_eq_token m e now c t hg hr]
      refine ⟨nodup_keys_mapSet _ _ _ h.1, ?_⟩
      intro p hp
      rcases mem_mapSet _ _ _ _ hp with rfl | hpm
      · have := h.2 (e, c) (mapGet_mem _ _ _ hg)
        simpa using this
      · exact h.2 p hpm

theorem goodState_revoke (m : Registry) (e : String) (h : GoodState m) :
    GoodState (removeUserConnection m e).1 := by
  cases hg : mapGet m e with
  | none => rw [revoke_eq_absent m e hg]; exact h
  | some c =>
    rw [revoke_eq_present m e c hg]
    refine ⟨nodup_keys_mapSet _ _ _ h.1, ?_⟩
    intro p hp
    rcases mem_mapSet _ _ _ _ hp with rfl | hpm
    · right; rfl
    · exact h.2 p hpm

theorem reachable_goodState (m : Registry) (h : Reachable m) : GoodState m := by
  induction h with
  | init =>
    refine ⟨List.nodup_nil, ?_⟩
    intro p hp
    simp at hp
  | connect m e tok rtok ein now _ ih => exact goodState_connect m e tok rtok ein now ih
  | refresh m e now _ ih => exact goodState_refresh m e now ih
  | revoke m e _ ih => exact goodState_revoke m e ih

/-! ### Character-level lemmas for the entity-id sanitizer -/

theorem isUpper_iff (a : Char) : a.isUpper = true ↔ 65 ≤ a.toNat ∧ a.toNat ≤ 90 := by
  simp [Char.isUpper, Char.toNat, UInt32.le_def, BitVec.le_def, UInt32.toNat]

theorem toLower_alphanum (a : Char) (h : a.isAlphanum = true) :
    a.toLower.isAlphanum = true ∧ a.toLower.isUpper = false := by
  by_cases hu : 65 ≤ a.toNat ∧ a.toNat ≤ 90
  · have hl : a.toLower = Char.ofNat (a.toNat + 32) := by
      unfold Char.toLower
      rw [if_pos ⟨hu.1, hu.2⟩]
    obtain ⟨h1, h2⟩ := hu
    rw [hl]
    set n := a.toNat with hn
    clear hn hl h
    interval_cases n <;> exact ⟨by decide, by decide⟩
  · have hl : a.toLower = a := by
      unfold Char.toLower
      rw [if_neg]
      intro hc
      exact hu ⟨hc.1, hc.2⟩
    rw [hl]
    refine ⟨h, ?_⟩
    rw [Bool.eq_false_iff]
    intro hup
    exact hu ((isUpper_iff a).mp hup)

/-! ### C1: entity-id derivation -/

/-- C1 counterexample: the claim says the derived entityId contains only
alphanumeric characters, but `deriveEntityId "a@b"` is `"a_b"`, which
contains the underscore, a non-alphanumeric character (the sanitizer
replaces non-alphanumerics with `_` instead of removing them). -/
theorem deriveEntityId_underscore_counterexample :
    deriveEntityId "a@b" = "a_b" ∧
    '_' ∈ (deriveEntityId "a@b").data ∧
    '_'.isAlphanum = false := by
  decide

/-- C1 (amended): the entity-mapping function is a pure, deterministic
function of the email; every character of its result is alphanumeric or an
underscore (non-alphanumerics are replaced by `_`), and no character of the
result is upper-case. -/
theorem deriveEntityId_sanitized (email : String) (c : Char)
    (h : c ∈ (deriveEntityId email).data) :
    (c.isAlphanum = true ∨ c = '_') ∧ c.isUpper = false := by
  simp only [deriveEntityId, List.mem_map] at h
  obtain ⟨a, _, rfl⟩ := h
  unfold sanitizeChar
  by_cases ha : a.isAlphanum
  · rw [if_pos ha]
    have := toLower_alphanum a ha
    exact ⟨Or.inl this.1, this.2⟩
  · rw [if_neg ha]
    exact ⟨Or.inr (by decide), by decide⟩

/-- Witness for C1's amended theorem at the concrete email `"John@Ex.com"`
and the character `'j'` of its derived entityId. -/
theorem deriveEntityId_sanitized_witness :
    'j' ∈ (deriveEntityId "John@Ex.com").data ∧
    (('j'.isAlphanum = true ∨ 'j' = '_') ∧ 'j'.isUpper = false) :=
  ⟨by decide, deriveEntityId_sanitized "John@Ex.com" 'j' (by decide)⟩

/-! ### C2: refresh -/

/-- C2 counterexample: the claim says a successful refresh makes the new
`expiresAt` strictly later than the old one, but refreshing
`sampleLongLivedConn` (old `expiresAt` 7200000) at `now = 0` succeeds and
sets `expiresAt` to 3600000, which is strictly earlier. -/
theorem refresh_not_extending_counterexample :
    (refreshUserConnection sampleRegistry "u" 0).2 = true ∧
    mapGet (refreshUserConnection sampleRegistry "u" 0).1 "u" =
      some { sampleLongLivedConn with expiresAt := 3600000 } ∧
    sampleLongLivedConn.expiresAt = 7200000 ∧
    ¬ (7200000 : Int) < 3600000 := by
  refine ⟨by decide, by decide, by decide, by decide⟩

/-- C2 (amended): `refresh(userEmail)` returns `false` and leaves the
registry unchanged when no record exists for that email or the record has
no refresh token; otherwise it sets the record's `expiresAt` to a fixed
window (3600 s) after the current time — which may be earlier than the
previous `expiresAt` — and returns `true`. -/
theorem refreshUserConnection_spec (m : Registry) (e : String) (now : Int) :
    ((mapGet m e = none ∨ ∃ c, mapGet m e = some c ∧ c.refreshToken = none) →
      refreshUserConnection m e now = (m, false)) ∧
    (∀ c t, mapGet m e = some c → c.refreshToken = some t →
      (refreshUserConnection m e now).2 = true ∧
      mapGet (refreshUserConnection m e now).1 e =
        some { c with expiresAt := now + 3600 * 1000 }) := by
  constructor
  · intro h
    rcases h with hg | ⟨c, hg, hr⟩
    · exact refresh_eq_absent m e now hg
    · exact refresh_eq_no_token m e now c hg hr
  · intro c t hg hr
    rw [refresh_eq_token m e now c t hg hr]
    exact ⟨rfl, mapGet_mapSet_self m e _⟩

/-- Witness for C2's amended theorem: refreshing `sampleRegistry` at
`now = 0` succeeds and writes `expiresAt = 0 + 3600 * 1000`. -/
theorem refreshUserConnection_spec_witness :
    (refreshUserConnection sampleRegistry "u" 0).2 = true ∧
    mapGet (refreshUserConnection sampleRegistry "u" 0).1 "u" =
      some { sampleLongLivedConn with expiresAt := 0 + 3600 * 1000 } :=
  (refreshUserConnection_spec sampleRegistry "u" 0).2 sampleLongLivedConn "rt"
    (by decide) (by decide)

/-! ### C3: isActive -/

/-- C3: `isActive(userEmail)` (the code's `hasUserConnection`) is `true` at
time `now` iff a record exists for that email with `status = active` and
`expiresAt > now`. In this embedding the operation is a pure observer of
the registry (it returns only a `Bool`), so it performs no mutation. -/
theorem hasUserConnection_iff (m : Registry) (e : String) (now : Int) :
    hasUserConnection m e now = true ↔
      ∃ c, mapGet m e = some c ∧ c.status = ConnStatus.active ∧
        c.expiresAt > now := by
  unfold hasUserConnection
  cases hg : mapGet m e with
  | none => simp
  | some c => simp

/-! ### C4: revoke then isActive -/

/-- C4: `revoke(userEmail)` returns `false` when no record exists; when a
record exists it sets the record's status to `revoked`, returns `true`, and
any subsequent `isActive(userEmail)` is `false` at every time `now` — in
particular even when `expiresAt` is still in the future. -/
theorem removeUserConnection_spec (m : Registry) (e : String) (now : Int) :
    (mapGet m e = none → removeUserConnection m e = (m, false)) ∧
    (∀ c, mapGet m e = some c →
      (removeUserConnection m e).2 = true ∧
      mapGet (removeUserConnection m e).1 e =
        some { c with status := ConnStatus.revoked } ∧
      hasUserConnection (removeUserConnection m e).1 e now = false) := by
  constructor
  · intro hg
    exact revoke_eq_absent m e hg
  · intro c hg
    rw [revoke_eq_present m e c hg]
    refine ⟨rfl, mapGet_mapSet_self m e _, ?_⟩
    unfold hasUserConnection
    rw [mapGet_mapSet_self]
    simp

/-- Witness for C4: revoking the record of `sampleRegistry` (whose
`expiresAt` 7200000 is still in the future at `now = 0`) succeeds and
`isActive` is `false` afterwards. -/
theorem removeUserConnection_spec_witness :
    (removeUserConnection sampleRegistry "u").2 = true ∧
    mapGet (removeUserConnection sampleRegistry "u").1 "u" =
      some { sampleLongLivedConn with status := ConnStatus.revoked } ∧
    hasUserConnection (removeUserConnection sampleRegistry "u").1 "u" 0 = false :=
  (removeUserConnection_spec sampleRegistry "u" 0).2 sampleLongLivedConn (by decide)

/-! ### C5: at most one record per email; connect overwrites -/

/-- C5: in every reachable registry state there is at most one record per
`userEmail`; after a successful token-exchange connect
(`connectUserGoogleAccount`) exactly one record exists for that email and
it has `status = active`; and re-connecting an email that already has a
record overwrites it (the registry size is unchanged) rather than adding a
second record. -/
theorem registry_at_most_one_per_email (m : Registry) (h : Reachable m)
    (e e' tok : String) (rtok : Option String) (ein : Option Int) (now : Int) :
    (keys m).count e' ≤ 1 ∧
    (keys (connectUserGoogleAccount m e tok rtok ein now)).count e = 1 ∧
    mapGet (connectUserGoogleAccount m e tok rtok ein now) e =
      some (connRecord e tok rtok ein now) ∧
    (connRecord e tok rtok ein now).status = ConnStatus.active ∧
    (e ∈ keys m →
      (connectUserGoogleAccount m e tok rtok ein now).length = m.length) := by
  have hgs := reachable_goodState m h
  refine ⟨List.nodup_iff_count_le_one.mp hgs.1 e', ?_, ?_, rfl, ?_⟩
  · rw [connect_eq]
    exact count_keys_mapSet m e _ hgs.1
  · rw [connect_eq]
    exact mapGet_mapSet_self m e _
  · intro hmem
    rw [connect_eq]
    exact length_mapSet_mem m e _ hmem

/-- Witness for C5 at the empty (initial) registry: connecting `"u"` yields
exactly one active record for `"u"`. -/
theorem registry_at_most_one_per_email_witness :
    (keys ([] : Registry)).count "v" ≤ 1 ∧
    (keys (connectUserGoogleAccount [] "u" "at" none none 0)).count "u" = 1 ∧
    mapGet (connectUserGoogleAccount [] "u" "at" none none 0) "u" =
      some (connRecord "u" "at" none none 0) ∧
    (connRecord "u" "at" none none 0).status = ConnStatus.active ∧
    ("u" ∈ keys ([] : Registry) →
      (connectUserGoogleAccount [] "u" "at" none none 0).length =
        ([] : Registry).length) :=
  registry_at_most_one_per_email [] Reachable.init "u" "v" "at" none none 0

/-! ### C10: refresh ignores status -/

/-- C10: `refresh` never inspects the record's status: a revoked record
that still has a refresh token is refreshed successfully (`true` is
returned and `expiresAt` becomes `now + 3600 s`, a future instant), yet
`isActive` afterwards is still `false` at every time, because the status
stays `revoked`. -/
theorem refresh_ignores_status (m : Registry) (e t : String)
    (c : UserConnection) (now : Int) (hg : mapGet m e = some c)
    (hs : c.status = ConnStatus.revoked) (hr : c.refreshToken = some t) :
    (refreshUserConnection m e now).2 = true ∧
    (∃ c', mapGet (refreshUserConnection m e now).1 e = some c' ∧
      c'.expiresAt = now + 3600 * 1000 ∧ now < c'.expiresAt ∧
      c'.status = ConnStatus.revoked) ∧
    ∀ now', hasUserConnection (refreshUserConnection m e now).1 e now' = false := by
  rw [refresh_eq_token m e now c t hg hr]
  refine ⟨rfl, ?_, ?_⟩
  · refine ⟨{ c with expiresAt := now + 3600 * 1000 },
      mapGet_mapSet_self m e _, rfl, ?_, by simpa using hs⟩
    show now < now + 3600 * 1000
    omega
  · intro now'
    unfold hasUserConnection
    rw [mapGet_mapSet_self]
    simp [hs]

/-- Witness for C10: refreshing the revoked record of
`sampleRevokedRegistry` at `now = 0` succeeds, sets a future expiry, and
`isActive` stays `false` (shown at time 1). -/
theorem refresh_ignores_status_witness :
    ((refreshUserConnection sampleRevokedRegistry "w" 0).2 = true ∧
    (∃ c', mapGet (refreshUserConnection sampleRevokedRegistry "w" 0).1 "w" =
        some c' ∧
      c'.expiresAt = 0 + 3600 * 1000 ∧ (0 : Int) < c'.expiresAt ∧
      c'.status = ConnStatus.revoked) ∧
    ∀ now', hasUserConnection (refreshUserConnection sampleRevokedRegistry "w" 0).1
      "w" now' = false) :=
  refresh_ignores_status sampleRevokedRegistry "w" "rt" sampleRevokedConn 0
    (by decide) (by decide) (by decide)

/-! ### C6: dispatch short-circuit -/

/-- C6: for every dispatch request (with the required `message` and
`userEmail` present) whose resolved connection status is `not_found`,
`pending`, or `error`, the endpoint returns the conversational
`needsConnection` response and performs zero `generateText` (LLM)
invocations; and across all inputs, a positive LLM-invocation count occurs
only when the resolved status is `active`. -/
theorem dispatch_short_circuit (st : ConnCheckStatus) (toolsOk llm1Ok llm2Ok : Bool)
    (h : st = ConnCheckStatus.notFound ∨ st = ConnCheckStatus.pending ∨
      st = ConnCheckStatus.error) :
    (dispatchSendMessage true true st toolsOk llm1Ok llm2Ok).1 =
      DispatchOutcome.needsConnectionMsg ∧
    needsConnectionFlag (dispatchSendMessage true true st toolsOk llm1Ok llm2Ok).1 = true ∧
    (dispatchSendMessage true true st toolsOk llm1Ok llm2Ok).2 = 0 ∧
    (∀ (hm he : Bool) (st' : ConnCheckStatus) (t1 t2 t3 : Bool),
      0 < (dispatchSendMessage hm he st' t1 t2 t3).2 →
        st' = ConnCheckStatus.active) := by
  have honly : ∀ (hm he : Bool) (st' : ConnCheckStatus) (t1 t2 t3 : Bool),
      0 < (dispatchSendMessage hm he st' t1 t2 t3).2 →
        st' = ConnCheckStatus.active := by
    intro hm he st' t1 t2 t3 hpos
    cases hm <;> cases he <;> cases st' <;> cases t1 <;> cases t2 <;> cases t3 <;>
      simp_all [dispatchSendMessage]
  rcases h with rfl | rfl | rfl <;> exact ⟨rfl, rfl, rfl, honly⟩

/-- Witness for C6 at the concrete status `not_found`. -/
theorem dispatch_short_circuit_witness :
    (dispatchSendMessage true true ConnCheckStatus.notFound true true true).1 =
      DispatchOutcome.needsConnectionMsg ∧
    needsConnectionFlag
      (dispatchSendMessage true true ConnCheckStatus.notFound true true true).1 = true ∧
    (dispatchSendMessage true true ConnCheckStatus.notFound true true true).2 = 0 ∧
    (∀ (hm he : Bool) (st' : ConnCheckStatus) (t1 t2 t3 : Bool),
      0 < (dispatchSendMessage hm he st' t1 t2 t3).2 →
        st' = ConnCheckStatus.active) :=
  dispatch_short_circuit ConnCheckStatus.notFound true true true (Or.inl rfl)

/-! ### C7: callback without code/state ends in error -/

/-- C7: for every redirect URL whose query string is missing the `code`
parameter or the `state` parameter, the OAuth callback handler's trace ends
in the terminal `error` state and never passes through `success`,
regardless of the other inputs. -/
theorem oauth_missing_params_error (q : List (String × String)) (ex : Bool)
    (email : Option String) (br : Bool)
    (h : lookupParam q "code" = none ∨ lookupParam q "state" = none) :
    finalStatus (handleOAuthCallback q ex email br) = some CbStatus.error ∧
    CbStatus.success ∉ handleOAuthCallback q ex email br := by
  have hcb : handleCallback q = none := by
    unfold handleCallback
    rcases h with h | h
    · rw [h]
    · rw [h]
      cases lookupParam q "code" <;> rfl
  have ht : handleOAuthCallback q ex email br =
      [CbStatus.processing, CbStatus.error] := by
    simp [handleOAuthCallback, hcb]
  rw [ht]
  exact ⟨rfl, by decide⟩

/-- Witness for C7: a query string carrying only `state` (no `code`) ends in
`error` and never reaches `success`. -/
theorem oauth_missing_params_error_witness :
    finalStatus (handleOAuthCallback [("state", "xyz")] true (some "u@e") true) =
      some CbStatus.error ∧
    CbStatus.success ∉ handleOAuthCallback [("state", "xyz")] true (some "u@e") true :=
  oauth_missing_params_error [("state", "xyz")] true (some "u@e") true
    (Or.inl (by decide))

/-! ### C8: bridge failure is swallowed -/

/-- C8: when the redirect URL carries both `code` and `state` and the token
exchange succeeds, a failure of the Server-Integration Bridge notification
is swallowed: the handler's trace still ends in `success` and never passes
through `error`. -/
theorem oauth_bridge_failure_swallowed (q : List (String × String)) (c s em : String)
    (hq : lookupParam q "code" = some c) (hs : lookupParam q "state" = some s) :
    finalStatus (handleOAuthCallback q true (some em) false) =
      some CbStatus.success ∧
    CbStatus.error ∉ handleOAuthCallback q true (some em) false := by
  have hcb : handleCallback q = some (c, s) := by
    unfold handleCallback
    rw [hq, hs]
  have ht : handleOAuthCallback q true (some em) false =
      [CbStatus.processing, CbStatus.processing, CbStatus.processing,
        CbStatus.success] := by
    simp [handleOAuthCallback, hcb]
  rw [ht]
  exact ⟨rfl, by decide⟩

/-- Witness for C8: with `code` and `state` present, a successful exchange
and a failing bridge notification still end in `success`. -/
theorem oauth_bridge_failure_swallowed_witness :
    finalStatus (handleOAuthCallback [("code", "abc"), ("state", "xyz")] true
      (some "u@e") false) = some CbStatus.success ∧
    CbStatus.error ∉ handleOAuthCallback [("code", "abc"), ("state", "xyz")] true
      (some "u@e") false :=
  oauth_bridge_failure_swallowed [("code", "abc"), ("state", "xyz")] "abc" "xyz"
    "u@e" (by decide) (by decide)

/-! ### C9: summary counts -/

theorem decide_le_eq_not_decide_lt (x y : Int) :
    (decide (x ≤ y) : Bool) = !decide (y < x) := by
  by_cases h : y < x
  · simp [h, not_le.mpr h]
  · simp [h, not_lt.mp h]

theorem filter_and_split (l : List UserConnection) (A B : UserConnection → Bool) :
    (l.filter (fun c => A c && B c)).length +
      (l.filter (fun c => A c && !(B c))).length = (l.filter A).length := by
  induction l with
  | nil => rfl
  | cons a t ih =>
    cases hA : A a <;> cases hB : B a <;> simp [hA, hB] <;> omega

/-- C9: in every reachable registry state, `summary()`'s `active` and
`expired` buckets together count exactly the records whose status is
`active` (`active` those with future expiry, `expired` the rest), so
records with status `revoked` are counted in `total` but in neither
bucket; hence `active + expired ≤ total`, with equality exactly when no
record is revoked. -/
theorem getUserConnectionsSummary_spec (m : Registry) (h : Reachable m)
    (now : Int) :
    (getUserConnectionsSummary m now).active +
        (getUserConnectionsSummary m now).expired =
      ((m.map Prod.snd).filter
        (fun c => decide (c.status = ConnStatus.active))).length ∧
    (getUserConnectionsSummary m now).active +
        (getUserConnectionsSummary m now).expired ≤
      (getUserConnectionsSummary m now).total ∧
    ((getUserConnectionsSummary m now).active +
        (getUserConnectionsSummary m now).expired =
        (getUserConnectionsSummary m now).total ↔
      ∀ p ∈ m, p.2.status ≠ ConnStatus.revoked) := by
  have hgs := reachable_goodState m h
  have heq : ((m.map Prod.snd).filter
        (fun c => decide (c.status = ConnStatus.active) &&
          decide (c.expiresAt ≤ now)))
      = (m.map Prod.snd).filter
        (fun c => decide (c.status = ConnStatus.active) &&
          !decide (c.expiresAt > now)) := by
    apply List.filter_congr
    intro c _
    rw [decide_le_eq_not_decide_lt]
  have hsplit : (getUserConnectionsSummary m now).active +
        (getUserConnectionsSummary m now).expired =
      ((m.map Prod.snd).filter
        (fun c => decide (c.status = ConnStatus.active))).length := by
    simp only [getUserConnectionsSummary]
    rw [heq]
    exact filter_and_split (m.map Prod.snd) _ _
  have htot : (getUserConnectionsSummary m now).total =
      (m.map Prod.snd).length := by
    simp [getUserConnectionsSummary]
  refine ⟨hsplit, ?_, ?_⟩
  · rw [hsplit, htot]
    exact List.length_filter_le _ _
  · rw [hsplit, htot]
    rw [List.filter_length_eq_length]
    constructor
    · intro hall p hp
      have hp2 := hall p.2 (List.mem_map_of_mem Prod.snd hp)
      simp only [decide_eq_true_eq] at hp2
      simp [hp2]
    · intro hnr c hc
      obtain ⟨p, hp, rfl⟩ := List.mem_map.mp hc
      rcases hgs.2 p hp with hA | hR
      · simp [hA]
      · exact absurd hR (hnr p hp)

/-- Witness for C9 at the reachable one-record registry obtained by
connecting `"u"` into the empty registry, observed at time 0. -/
theorem getUserConnectionsSummary_spec_witness :
    (getUserConnectionsSummary (connectUserGoogleAccount [] "u" "at" none none 0) 0).active +
        (getUserConnectionsSummary (connectUserGoogleAccount [] "u" "at" none none 0) 0).expired =
      (((connectUserGoogleAccount [] "u" "at" none none 0).map Prod.snd).filter
        (fun c => decide (c.status = ConnStatus.active))).length ∧
    (getUserConnectionsSummary (connectUserGoogleAccount [] "u" "at" none none 0) 0).active +
        (getUserConnectionsSummary (connectUserGoogleAccount [] "u" "at" none none 0) 0).expired ≤
      (getUserConnectionsSummary (connectUserGoogleAccount [] "u" "at" none none 0) 0).total ∧
    ((getUserConnectionsSummary (connectUserGoogleAccount [] "u" "at" none none 0) 0).active +
        (getUserConnectionsSummary (connectUserGoogleAccount [] "u" "at" none none 0) 0).expired =
        (getUserConnectionsSummary (connectUserGoogleAccount [] "u" "at" none none 0) 0).total ↔
      ∀ p ∈ connectUserGoogleAccount [] "u" "at" none none 0,
        p.2.status ≠ ConnStatus.revoked) :=
  getUserConnectionsSummary_spec (connectUserGoogleAccount [] "u" "at" none none 0)
    (Reachable.connect [] "u" "at" none none 0 Reachable.init) 0

end Planner
